import Mathlib

/-!
Verification of the procedural ambient-music synthesizer in
`src/modules/music_generator.py` of the reelgenerator repository.

The Python module is shallowly embedded here:
* Python `float` values (durations, frequencies, ratios) are modelled as `ℚ`
  where the computation is rational, and as `ℝ` where `math.sin` is involved.
* Python `int(x)` (truncation toward zero) is modelled by `pyInt` / `pyTrunc`.
* The sample buffer is a `List (ℝ × ℝ)` of (left, right) frames.
* The WAV writer's per-sample quantization is modelled by `quantize`.
-/

set_option maxRecDepth 10000

/-- Python `int(x)` on a rational: truncation toward zero. -/
def pyInt (q : ℚ) : ℤ := if 0 ≤ q then ⌊q⌋ else ⌈q⌉

/-- `SAMPLE_RATE = 44100` (module constant, line 28). -/
def SAMPLE_RATE : ℕ := 44100

/-- `config.MUSIC_FADE_IN = 1.0` (config.py line 52). -/
def MUSIC_FADE_IN : ℚ := 1

/-- `config.MUSIC_FADE_OUT = 2.0` (config.py line 53). -/
def MUSIC_FADE_OUT : ℚ := 2

/-- The `"calm"` chord progression of `MOOD_CHORDS` (lines 33-38). -/
def calmChords : List (List ℚ) :=
  [[261.63, 329.63, 392.00],
   [349.23, 440.00, 523.25],
   [293.66, 369.99, 440.00],
   [392.00, 493.88, 587.33]]

/-- The `MOOD_CHORDS` table (lines 32-69): mood key → 4 chords of 3 Hz values. -/
def MOOD_CHORDS : List (String × List (List ℚ)) :=
  [("calm", calmChords),
   ("inspirational",
     [[261.63, 329.63, 392.00],
      [293.66, 369.99, 440.00],
      [349.23, 440.00, 523.25],
      [392.00, 493.88, 587.33]]),
   ("nostalgic",
     [[220.00, 261.63, 329.63],
      [349.23, 440.00, 523.25],
      [261.63, 329.63, 392.00],
      [329.63, 392.00, 493.88]]),
   ("epic",
     [[293.66, 369.99, 440.00],
      [174.61, 220.00, 261.63],
      [261.63, 329.63, 392.00],
      [196.00, 246.94, 293.66]]),
   ("melancholic",
     [[220.00, 261.63, 329.63],
      [329.63, 392.00, 493.88],
      [293.66, 349.23, 440.00],
      [220.00, 277.18, 329.63]]),
   ("dreamy",
     [[261.63, 392.00, 493.88],
      [349.23, 523.25, 659.25],
      [293.66, 440.00, 554.37],
      [392.00, 587.33, 739.99]])]

/-- `MOOD_CHORDS.get(mood, MOOD_CHORDS["calm"])` (line 153). -/
def moodChords (mood : String) : List (List ℚ) :=
  (MOOD_CHORDS.lookup mood).getD calmChords

/-- Python's substring test `needle in haystack` on character lists. -/
def containsSub (needle : List Char) : List Char → Bool
  | [] => needle.isEmpty
  | c :: rest => needle.isPrefixOf (c :: rest) || containsSub needle rest

/-- Python's substring test `needle in haystack` on strings. -/
def strContains (needle haystack : String) : Bool :=
  containsSub needle.data haystack.data

/-- The `mood_keywords` table of `_detect_mood` (lines 132-139),
in the dict's insertion order. -/
def moodKeywords : List (String × List String) :=
  [("calm", ["calm", "peaceful", "soft", "gentle", "ambient", "lo-fi", "lofi", "chill"]),
   ("inspirational", ["inspirational", "uplifting", "hope", "motivational", "bright"]),
   ("nostalgic", ["nostalgic", "memory", "vintage", "retro", "warm"]),
   ("epic", ["epic", "cinematic", "dramatic", "powerful", "intense", "orchestral"]),
   ("melancholic", ["sad", "melancholic", "emotional", "piano", "somber", "dark"]),
   ("dreamy", ["dreamy", "ethereal", "floating", "spacey", "atmospheric"])]

/-- Python `str.lower()` (restricted to its action on ASCII letters),
character by character over the string's character list. -/
def pyLower (s : String) : String := String.mk (s.data.map Char.toLower)

/-- `_detect_mood` (lines 128-145): lower-case the tone text, return the first
mood in table order one of whose keywords occurs as a substring, else `"calm"`. -/
def detect_mood (audio_tone : String) : String :=
  let tone := pyLower audio_tone
  match moodKeywords.find? (fun mk => mk.2.any (fun kw => strContains kw tone)) with
  | some mk => mk.1
  | none => "calm"

/-- The glob patterns scanned by `_find_custom_music` (line 120), in order. -/
def musicGlobs : List String := ["*.mp3", "*.wav", "*.ogg", "*.m4a"]

/-- `music_dir.glob("*.ext")` membership test: a pattern `*.ext` matches a file
name that ends with `.ext` (the leading `*` consumes any prefix). -/
def globMatch (pat : String) (name : String) : Bool :=
  (pat.data.drop 1).isSuffixOf name.data

/-- The extension-scanning loop of `_find_custom_music` (lines 120-125): for
each pattern in order, list the matching files; return the first file of the
first non-empty listing. -/
def findFirstMatch (files : List String) : List String → Option String
  | [] => none
  | pat :: rest =>
    match files.filter (fun f => globMatch pat f) with
    | [] => findFirstMatch files rest
    | f :: _ => some f

/-- `_find_custom_music` (lines 114-125).  The directory is modelled as
`none` when it does not exist and `some files` (the listing, in directory
order) when it does. -/
def find_custom_music (musicDir : Option (List String)) : Option String :=
  match musicDir with
  | none => none
  | some files => findFirstMatch files musicGlobs

/-- Python `int(x)` on a real: truncation toward zero. -/
noncomputable def pyTrunc (x : ℝ) : ℤ := if 0 ≤ x then ⌊x⌋ else ⌈x⌉

/-- `sample = max(-0.8, min(0.8, sample))` (line 189). -/
noncomputable def clamp (x : ℝ) : ℝ := max (-0.8) (min 0.8 x)

/-- The harmonic accumulation loop over the chord's frequencies
(lines 167-175): fundamental at 0.15, overtone `freq * 2` at 0.05,
sub-bass `freq * 0.5` at 0.08, summed into `sample` starting from `0.0`. -/
noncomputable def preSample (chord : List ℚ) (t : ℝ) : ℝ :=
  chord.foldl (fun (sample : ℝ) (freq : ℚ) =>
    sample + 0.15 * Real.sin (2 * Real.pi * (freq : ℝ) * t)
           + 0.05 * Real.sin (2 * Real.pi * (freq : ℝ) * 2 * t)
           + 0.08 * Real.sin (2 * Real.pi * (freq : ℝ) * 0.5 * t)) 0

/-- `lfo = 1.0 + 0.03 * math.sin(2 * math.pi * 0.2 * t)` (line 178). -/
noncomputable def lfo (t : ℝ) : ℝ := 1.0 + 0.03 * Real.sin (2 * Real.pi * 0.2 * t)

/-- `crossfade_samples = int(0.5 * SAMPLE_RATE)` (line 182). -/
def crossfade_samples : ℤ := pyInt (0.5 * (SAMPLE_RATE : ℚ))

/-- One frame of the per-chord inner loop (lines 165-194): harmonic sum,
LFO wobble, the `if`/`elif` crossfade, the clamp, and stereo derivation
`left = sample`, `right = sample * 0.95`. -/
noncomputable def segFrame (samples_per_chord : ℤ) (chord : List ℚ) (i : ℕ) : ℝ × ℝ :=
  let t : ℝ := (i : ℝ) / (SAMPLE_RATE : ℝ)
  let s₁ := preSample chord t * lfo t
  let s₂ :=
    if (i : ℤ) < crossfade_samples then
      s₁ * ((i : ℝ) / ((crossfade_samples : ℤ) : ℝ))
    else if samples_per_chord - crossfade_samples < (i : ℤ) then
      s₁ * (((samples_per_chord - (i : ℤ) : ℤ) : ℝ) / ((crossfade_samples : ℤ) : ℝ))
    else s₁
  let s₃ := clamp s₂
  (s₃, s₃ * 0.95)

/-- The frames generated for one chord: `for i in range(samples_per_chord)`
(line 165). -/
noncomputable def segmentFrames (samples_per_chord : ℤ) (chord : List ℚ) : List (ℝ × ℝ) :=
  (List.range samples_per_chord.toNat).map (segFrame samples_per_chord chord)

/-- The outer chord loop (lines 161-194): `for chord_idx, _ in enumerate(chords)`
with `actual_chord = chords[chord_idx % len(chords)]`. -/
noncomputable def genFrames (chords : List (List ℚ)) (samples_per_chord : ℤ) :
    List (ℝ × ℝ) :=
  ((List.range chords.length).map (fun chord_idx =>
    segmentFrames samples_per_chord (chords.getD (chord_idx % chords.length) []))).flatten

/-- Index-aware in-place update of a buffer, modelling Python's
`for i in range(...): data[i] = f(i, data[i])` loops. -/
def idxMap {α : Type} (f : ℕ → α → α) : ℕ → List α → List α
  | _, [] => []
  | n, a :: rest => f n a :: idxMap f (n + 1) rest

/-- `fade_in_samples = int(config.MUSIC_FADE_IN * SAMPLE_RATE)` (line 201). -/
def fade_in_samples : ℤ := pyInt (MUSIC_FADE_IN * (SAMPLE_RATE : ℚ))

/-- `fade_out_samples = int(config.MUSIC_FADE_OUT * SAMPLE_RATE)` (line 202). -/
def fade_out_samples : ℤ := pyInt (MUSIC_FADE_OUT * (SAMPLE_RATE : ℚ))

/-- One step of the global fade-in loop (lines 204-206): frame `i` is scaled
by `i / fade_in_samples` when `i < min(fade_in_samples, len)`; since `i` is a
valid index, that condition is `i < fade_in_samples`. -/
noncomputable def fadeInFrame (i : ℕ) (p : ℝ × ℝ) : ℝ × ℝ :=
  if (i : ℤ) < fade_in_samples then
    (p.1 * ((i : ℝ) / ((fade_in_samples : ℤ) : ℝ)),
     p.2 * ((i : ℝ) / ((fade_in_samples : ℤ) : ℝ)))
  else p

noncomputable def applyFadeIn (xs : List (ℝ × ℝ)) : List (ℝ × ℝ) :=
  idxMap fadeInFrame 0 xs

/-- One step of the global fade-out loop (lines 208-211): the frame at
`idx = len - 1 - i` is scaled by `i / fade_out_samples` for
`i < min(fade_out_samples, len)`; re-indexed by `idx`, frame `idx` is scaled
by `(len - 1 - idx) / fade_out_samples` when `len - 1 - idx < fade_out_samples`. -/
noncomputable def fadeOutFrame (len : ℕ) (idx : ℕ) (p : ℝ × ℝ) : ℝ × ℝ :=
  if ((len - 1 - idx : ℕ) : ℤ) < fade_out_samples then
    (p.1 * (((len - 1 - idx : ℕ) : ℝ) / ((fade_out_samples : ℤ) : ℝ)),
     p.2 * (((len - 1 - idx : ℕ) : ℝ) / ((fade_out_samples : ℤ) : ℝ)))
  else p

noncomputable def applyFadeOut (xs : List (ℝ × ℝ)) : List (ℝ × ℝ) :=
  idxMap (fadeOutFrame xs.length) 0 xs

/-- `total_samples = int(duration * SAMPLE_RATE)` (line 154). -/
def total_samples (duration : ℚ) : ℤ := pyInt (duration * (SAMPLE_RATE : ℚ))

/-- `samples_per_chord = int(chord_duration * SAMPLE_RATE)` with
`chord_duration = duration / len(chords)` (lines 155-156). -/
def samples_per_chord (duration : ℚ) (nChords : ℕ) : ℤ :=
  pyInt (duration / (nChords : ℚ) * (SAMPLE_RATE : ℚ))

/-- `audio_data` after generation and the silent-padding `while` loop
(lines 158-198): the `while len(audio_data) < total_samples` loop appends
`(0.0, 0.0)` frames until the length reaches `total_samples` (and appends
nothing when the buffer is already long enough). -/
noncomputable def paddedFrames (duration : ℚ) (mood : String) : List (ℝ × ℝ) :=
  let chords := moodChords mood
  let audio_data := genFrames chords (samples_per_chord duration chords.length)
  audio_data ++
    List.replicate ((total_samples duration).toNat - audio_data.length) ((0 : ℝ), (0 : ℝ))

/-- The float sample buffer of `_synthesize_ambient` (lines 148-219) as it is
written to the container: generation, the silent-padding `while` loop, both
global fades, and the final `audio_data[:total_samples]` slice. -/
noncomputable def synthesize_ambient_frames (duration : ℚ) (mood : String) :
    List (ℝ × ℝ) :=
  (applyFadeOut (applyFadeIn (paddedFrames duration mood))).take
    (total_samples duration).toNat

/-- The per-sample quantization of the WAV-writing loop (lines 220-223):
`int(x * 32767)` then `max(-32768, min(32767, .))`. -/
noncomputable def quantize (x : ℝ) : ℤ :=
  max (-32768) (min 32767 (pyTrunc (x * 32767)))

/-- What the spec's Container Writer sentence describes: `round(x * 32767)`
then the same clamp.  Stated for comparison with `quantize`. -/
noncomputable def roundQuantize (x : ℝ) : ℤ :=
  max (-32768) (min 32767 (round (x * 32767)))

/-- The integer frames written to the WAV container (lines 219-224). -/
noncomputable def synthesize_ambient_wav (duration : ℚ) (mood : String) :
    List (ℤ × ℤ) :=
  (synthesize_ambient_frames duration mood).map (fun p => (quantize p.1, quantize p.2))

/-- A frame whose two channels both lie within the clamp ceiling `[-0.8, 0.8]`. -/
def frameBounded (p : ℝ × ℝ) : Prop := |p.1| ≤ 0.8 ∧ |p.2| ≤ 0.8

/-- The crossfade factor that lines 181-186 multiply into the sample, as a
rational: `if i < crossfade_samples` the fade-in ramp, `elif
i > samples_per_chord - crossfade_samples` the fade-out ramp, else `1`
(no multiplication performed). -/
def fadeFactor (samples_per_chord : ℤ) (i : ℤ) : ℚ :=
  if i < crossfade_samples then (i : ℚ) / ((crossfade_samples : ℤ) : ℚ)
  else if samples_per_chord - crossfade_samples < i then
    ((samples_per_chord - i : ℤ) : ℚ) / ((crossfade_samples : ℤ) : ℚ)
  else 1

/-- The crossfade factor the spec's sentence describes: the first
`crossfade_samples` samples are scaled by the fade-in ramp AND the last
`crossfade_samples` samples (indices with `samples_per_chord -
crossfade_samples ≤ i`) are scaled by the fade-out ramp, both ramps applying
to overlapping samples.  Stated for comparison with `fadeFactor`. -/
def claimFadeFactor (samples_per_chord : ℤ) (i : ℤ) : ℚ :=
  (if i < crossfade_samples then (i : ℚ) / ((crossfade_samples : ℤ) : ℚ) else 1) *
  (if samples_per_chord - crossfade_samples ≤ i then
    ((samples_per_chord - i : ℤ) : ℚ) / ((crossfade_samples : ℤ) : ℚ) else 1)

/-- The error taxonomy named by the spec (§7).  `_synthesize_ambient`
contains no `raise` statement and defines none of these classes. -/
inductive MusicError where
  | invalidDuration
  | invalidMood
  | ioFailure
deriving DecidableEq

/-- `_synthesize_ambient` viewed as a fallible call.  The function body
(lines 148-224) contains no `raise` and no fallible operation other than the
file write, so every numeric input returns normally; the `Except` layer
records that no `MusicError` escape path exists in the code. -/
noncomputable def synthesize_ambient_checked (duration : ℚ) (mood : String) :
    Except MusicError (List (ℝ × ℝ)) :=
  Except.ok (synthesize_ambient_frames duration mood)

/-- The ambient state a synthesis call could in principle observe: the
global RNG state (`random`) and a wall clock. -/
structure SynthEnv where
  rngState : ℕ
  wallClock : ℕ

/-- `_synthesize_ambient` with its ambient state made explicit: line 159
(`random.seed(42)`) replaces the RNG state with the fixed seed 42, and no
later statement of the function reads the RNG or the clock, so the
environment is dropped after the reseeding. -/
noncomputable def synthesize_ambient_env (env : SynthEnv) (duration : ℚ)
    (mood : String) : List (ℝ × ℝ) :=
  let _seeded : SynthEnv := { rngState := 42, wallClock := env.wallClock }
  synthesize_ambient_frames duration mood

/-- Result of `generate_background_music`: either the custom-asset override
path, or a freshly synthesized file (the carried frames witness that the
synthesizer ran). -/
inductive MusicResult where
  | custom (path : String)
  | generated (path : String) (frames : List (ℝ × ℝ))

/-- `generate_background_music` (lines 72-111), with the directory listing,
the duration and the script's `audio_tone` as inputs: if `_find_custom_music`
returns a path it is returned directly (lines 92-95) and the synthesizer is
never invoked; otherwise the mood is detected and `_synthesize_ambient`
produces `background_music.wav`. -/
noncomputable def generate_background_music (musicDir : Option (List String))
    (duration : ℚ) (audio_tone : String) : MusicResult :=
  match find_custom_music musicDir with
  | some p => MusicResult.custom p
  | none =>
    MusicResult.generated "background_music.wav"
      (synthesize_ambient_frames duration (detect_mood (pyLower audio_tone)))

/-! ### Basic facts about the embedded constants and helpers -/

theorem pyInt_of_nonneg {q : ℚ} (h : 0 ≤ q) : pyInt q = ⌊q⌋ := if_pos h

theorem crossfade_samples_eq : crossfade_samples = 22050 := by
  norm_num [crossfade_samples, pyInt, SAMPLE_RATE]

theorem fade_in_samples_eq : fade_in_samples = 44100 := by
  norm_num [fade_in_samples, pyInt, MUSIC_FADE_IN, SAMPLE_RATE]

theorem fade_out_samples_eq : fade_out_samples = 88200 := by
  norm_num [fade_out_samples, pyInt, MUSIC_FADE_OUT, SAMPLE_RATE]

theorem moodChords_length (mood : String) : (moodChords mood).length = 4 := by
  unfold moodChords MOOD_CHORDS
  simp only [List.lookup]
  repeat' split
  all_goals rfl

theorem idxMap_length {α : Type} (f : ℕ → α → α) (n : ℕ) (xs : List α) :
    (idxMap f n xs).length = xs.length := by
  induction xs generalizing n with
  | nil => rfl
  | cons a rest ih => simp [idxMap, ih]

theorem mem_idxMap {α : Type} {f : ℕ → α → α} {n : ℕ} {xs : List α} {q : α}
    (h : q ∈ idxMap f n xs) : ∃ i p, p ∈ xs ∧ q = f i p := by
  induction xs generalizing n with
  | nil => simp [idxMap] at h
  | cons a rest ih =>
    simp only [idxMap, List.mem_cons] at h
    rcases h with h | h
    · exact ⟨n, a, List.mem_cons_self a rest, h⟩
    · obtain ⟨i, p, hp, hq⟩ := ih h
      exact ⟨i, p, List.mem_cons_of_mem a hp, hq⟩

theorem getD_idxMap {α : Type} (f : ℕ → α → α) (n : ℕ) (xs : List α) (i : ℕ)
    (d : α) (h : i < xs.length) :
    (idxMap f n xs).getD i d = f (n + i) (xs.getD i d) := by
  induction xs generalizing n i with
  | nil => simp at h
  | cons a rest ih =>
    cases i with
    | zero => simp [idxMap]
    | succ j =>
      simp only [List.length_cons, Nat.succ_lt_succ_iff] at h
      have := ih (n + 1) j h
      simpa [idxMap, Nat.add_assoc, Nat.add_comm 1 j] using this

theorem applyFadeIn_length (xs : List (ℝ × ℝ)) :
    (applyFadeIn xs).length = xs.length := idxMap_length _ _ _

theorem applyFadeOut_length (xs : List (ℝ × ℝ)) :
    (applyFadeOut xs).length = xs.length := idxMap_length _ _ _

theorem segmentFrames_length (spc : ℤ) (chord : List ℚ) :
    (segmentFrames spc chord).length = spc.toNat := by
  simp [segmentFrames]

theorem genFrames_length (chords : List (List ℚ)) (spc : ℤ) :
    (genFrames chords spc).length = chords.length * spc.toNat := by
  simp only [genFrames, List.length_flatten, List.map_map]
  have : (List.length ∘ fun chord_idx =>
      segmentFrames spc (chords.getD (chord_idx % chords.length) [])) =
      fun _ => spc.toNat := by
    funext i
    simp [segmentFrames]
  rw [this, List.map_const', List.sum_replicate, List.length_range, smul_eq_mul]

theorem sample_rate_cast : ((SAMPLE_RATE : ℕ) : ℚ) = 44100 := by
  norm_num [SAMPLE_RATE]

theorem sample_rate_cast_real : ((SAMPLE_RATE : ℕ) : ℝ) = 44100 := by
  norm_num [SAMPLE_RATE]

theorem four_floor_le (x : ℚ) : 4 * ⌊x⌋ ≤ ⌊4 * x⌋ := by
  apply Int.le_floor.mpr
  push_cast
  have := Int.floor_le x
  linarith

/-- Generation never overshoots: four segments of `int(duration/4 * sr)`
samples fit inside `int(duration * sr)`. -/
theorem four_spc_le_total (d : ℚ) (hd : 0 ≤ d) :
    4 * (pyInt (d / 4 * (SAMPLE_RATE : ℚ))).toNat ≤
      (pyInt (d * (SAMPLE_RATE : ℚ))).toNat := by
  rw [sample_rate_cast, pyInt_of_nonneg (by positivity), pyInt_of_nonneg (by positivity)]
  have h4 : 4 * ⌊d / 4 * 44100⌋ ≤ ⌊d * 44100⌋ := by
    have hx : d * 44100 = 4 * (d / 4 * 44100) := by ring
    rw [hx]
    exact four_floor_le _
  have h0 : 0 ≤ ⌊d / 4 * 44100⌋ := Int.floor_nonneg.mpr (by positivity)
  omega

/-- The buffer written to the container always has exactly
`int(duration * SAMPLE_RATE)` frames. -/
theorem synthesize_ambient_frames_length (duration : ℚ) (mood : String) :
    (synthesize_ambient_frames duration mood).length =
      (pyInt (duration * (SAMPLE_RATE : ℚ))).toNat := by
  simp only [synthesize_ambient_frames, paddedFrames, total_samples,
    List.length_take, applyFadeOut_length, applyFadeIn_length,
    List.length_append, List.length_replicate]
  omega

/-! ### Amplitude bounds -/

theorem abs_clamp_le (x : ℝ) : |clamp x| ≤ 0.8 := by
  rw [abs_le]
  refine ⟨le_max_left _ _, max_le (by norm_num) (min_le_left _ _)⟩

theorem abs_clamp_mul_le (x : ℝ) : |clamp x * 0.95| ≤ 0.8 := by
  rw [abs_mul]
  have h := abs_clamp_le x
  rw [(by norm_num : |(0.95 : ℝ)| = 0.95)]
  nlinarith [abs_nonneg (clamp x)]

theorem segFrame_bounded (spc : ℤ) (chord : List ℚ) (i : ℕ) :
    frameBounded (segFrame spc chord i) :=
  ⟨abs_clamp_le _, abs_clamp_mul_le _⟩

theorem genFrames_bounded {chords : List (List ℚ)} {spc : ℤ} {p : ℝ × ℝ}
    (hp : p ∈ genFrames chords spc) : frameBounded p := by
  simp only [genFrames, List.mem_flatten, List.mem_map, List.mem_range] at hp
  obtain ⟨l, ⟨idx, -, rfl⟩, hpl⟩ := hp
  simp only [segmentFrames, List.mem_map] at hpl
  obtain ⟨i, -, rfl⟩ := hpl
  exact segFrame_bounded _ _ _

theorem frameBounded_scale {p : ℝ × ℝ} (hp : frameBounded p) {r : ℝ}
    (h0 : 0 ≤ r) (h1 : r ≤ 1) : frameBounded (p.1 * r, p.2 * r) := by
  obtain ⟨hl, hr⟩ := hp
  constructor <;>
  · rw [abs_mul, abs_of_nonneg h0]
    nlinarith [abs_nonneg p.1, abs_nonneg p.2]

theorem ratio_bounds {i : ℕ} {m : ℤ} (him : (i : ℤ) < m) :
    0 ≤ (i : ℝ) / ((m : ℤ) : ℝ) ∧ (i : ℝ) / ((m : ℤ) : ℝ) ≤ 1 := by
  have hm : (0 : ℝ) < ((m : ℤ) : ℝ) := by
    have h0 : (0 : ℤ) < m := lt_of_le_of_lt (Int.ofNat_nonneg i) him
    exact_mod_cast h0
  refine ⟨div_nonneg (by positivity) hm.le, ?_⟩
  rw [div_le_one hm]
  exact_mod_cast him.le

theorem fadeInFrame_bounded (i : ℕ) {p : ℝ × ℝ} (hp : frameBounded p) :
    frameBounded (fadeInFrame i p) := by
  unfold fadeInFrame
  split
  · rename_i h
    obtain ⟨h0, h1⟩ := ratio_bounds h
    exact frameBounded_scale hp h0 h1
  · exact hp

theorem fadeOutFrame_bounded (len idx : ℕ) {p : ℝ × ℝ} (hp : frameBounded p) :
    frameBounded (fadeOutFrame len idx p) := by
  unfold fadeOutFrame
  split
  · rename_i h
    obtain ⟨h0, h1⟩ := ratio_bounds h
    exact frameBounded_scale hp h0 h1
  · exact hp

theorem applyFadeIn_bounded {xs : List (ℝ × ℝ)} (hxs : ∀ p ∈ xs, frameBounded p)
    {q : ℝ × ℝ} (hq : q ∈ applyFadeIn xs) : frameBounded q := by
  obtain ⟨i, p, hp, rfl⟩ := mem_idxMap hq
  exact fadeInFrame_bounded i (hxs p hp)

theorem applyFadeOut_bounded {xs : List (ℝ × ℝ)} (hxs : ∀ p ∈ xs, frameBounded p)
    {q : ℝ × ℝ} (hq : q ∈ applyFadeOut xs) : frameBounded q := by
  obtain ⟨i, p, hp, rfl⟩ := mem_idxMap hq
  exact fadeOutFrame_bounded xs.length i (hxs p hp)

/-- Every frame of the final buffer respects the `[-0.8, 0.8]` ceiling. -/
theorem synth_frames_bounded (d : ℚ) (mood : String) :
    ∀ p ∈ synthesize_ambient_frames d mood, frameBounded p := by
  intro p hp
  simp only [synthesize_ambient_frames, paddedFrames] at hp
  have hp' := List.take_subset _ _ hp
  refine applyFadeOut_bounded (fun q hq => applyFadeIn_bounded (fun r hr => ?_) hq) hp'
  rcases List.mem_append.mp hr with h | h
  · exact genFrames_bounded h
  · rw [List.eq_of_mem_replicate h]
    constructor <;> simp <;> norm_num

theorem quantize_bounds (x : ℝ) : -32768 ≤ quantize x ∧ quantize x ≤ 32767 :=
  ⟨le_max_left _ _, max_le (by norm_num) (min_le_left _ _)⟩

/-! ### Per-sample formula lemmas -/

theorem foldl_add_eq (g : ℚ → ℝ) (chord : List ℚ) (init : ℝ) :
    chord.foldl (fun s f => s + g f) init = init + (chord.map g).sum := by
  induction chord generalizing init with
  | nil => simp
  | cons f rest ih => simp [ih, add_assoc]

/-- The accumulation loop computes the sum, over the chord's frequencies, of
the three weighted sine components, with the overtone and sub-bass frequencies
written as `2·f` and `0.5·f`. -/
theorem preSample_eq_sum (chord : List ℚ) (t : ℝ) :
    preSample chord t = (chord.map (fun (f : ℚ) =>
      0.15 * Real.sin (2 * Real.pi * (f : ℝ) * t) +
      0.05 * Real.sin (2 * Real.pi * (2 * (f : ℝ)) * t) +
      0.08 * Real.sin (2 * Real.pi * (0.5 * (f : ℝ)) * t))).sum := by
  unfold preSample
  have hfun : (fun (sample : ℝ) (freq : ℚ) =>
      sample + 0.15 * Real.sin (2 * Real.pi * (freq : ℝ) * t)
             + 0.05 * Real.sin (2 * Real.pi * (freq : ℝ) * 2 * t)
             + 0.08 * Real.sin (2 * Real.pi * (freq : ℝ) * 0.5 * t)) =
      (fun (sample : ℝ) (freq : ℚ) => sample +
        (0.15 * Real.sin (2 * Real.pi * (freq : ℝ) * t) +
         0.05 * Real.sin (2 * Real.pi * (2 * (freq : ℝ)) * t) +
         0.08 * Real.sin (2 * Real.pi * (0.5 * (freq : ℝ)) * t))) := by
    funext s f
    rw [(by ring : 2 * Real.pi * (f : ℝ) * 2 * t = 2 * Real.pi * (2 * (f : ℝ)) * t),
        (by ring : 2 * Real.pi * (f : ℝ) * 0.5 * t = 2 * Real.pi * (0.5 * (f : ℝ)) * t)]
    ring
  rw [hfun, foldl_add_eq]
  rw [zero_add]

/-- The `if`/`elif` crossfade of lines 183-186 multiplies the sample by the
single factor `fadeFactor`. -/
theorem fade_branch_eq (spc : ℤ) (i : ℕ) (s₁ : ℝ) :
    (if (i : ℤ) < crossfade_samples then
      s₁ * ((i : ℝ) / ((crossfade_samples : ℤ) : ℝ))
    else if spc - crossfade_samples < (i : ℤ) then
      s₁ * (((spc - (i : ℤ) : ℤ) : ℝ) / ((crossfade_samples : ℤ) : ℝ))
    else s₁) = s₁ * ((fadeFactor spc (i : ℤ) : ℚ) : ℝ) := by
  unfold fadeFactor
  split_ifs with h1 h2
  · push_cast
    ring
  · push_cast
    ring
  · rw [Rat.cast_one, mul_one]

/-- Each generated frame, expressed through the code's pipeline stages:
harmonics, LFO, single crossfade factor, clamp, stereo offset. -/
theorem segFrame_eq_fadeFactor (spc : ℤ) (chord : List ℚ) (i : ℕ) :
    segFrame spc chord i =
      (clamp (preSample chord ((i : ℝ) / ((SAMPLE_RATE : ℕ) : ℝ)) *
              lfo ((i : ℝ) / ((SAMPLE_RATE : ℕ) : ℝ)) *
              ((fadeFactor spc (i : ℤ) : ℚ) : ℝ)),
       clamp (preSample chord ((i : ℝ) / ((SAMPLE_RATE : ℕ) : ℝ)) *
              lfo ((i : ℝ) / ((SAMPLE_RATE : ℕ) : ℝ)) *
              ((fadeFactor spc (i : ℤ) : ℚ) : ℝ)) * 0.95) := by
  simp only [segFrame]
  rw [fade_branch_eq]

theorem segmentFrames_getD (spc : ℤ) (chord : List ℚ) (i : ℕ)
    (h : i < spc.toNat) :
    (segmentFrames spc chord).getD i ((0 : ℝ), (0 : ℝ)) = segFrame spc chord i := by
  unfold segmentFrames
  rw [List.getD_eq_getElem?_getD, List.getElem?_map, List.getElem?_range h]
  rfl

/-! ### Behaviour at non-positive durations -/

theorem pyInt_toNat_of_nonpos {q : ℚ} (h : q ≤ 0) : (pyInt q).toNat = 0 := by
  apply Int.toNat_of_nonpos
  unfold pyInt
  split_ifs with h0
  · exact le_trans (Int.floor_le_floor h) (by norm_num)
  · exact Int.ceil_le.mpr (by exact_mod_cast h)

/-- For a non-positive duration the generation range, the padding target and
the final slice are all empty: the code completes and the written buffer is
empty. -/
theorem synth_empty_of_nonpos (duration : ℚ) (mood : String)
    (h : duration ≤ 0) : synthesize_ambient_frames duration mood = [] := by
  have ht : (total_samples duration).toNat = 0 := by
    apply pyInt_toNat_of_nonpos
    have hs : (0 : ℚ) ≤ (SAMPLE_RATE : ℚ) := by positivity
    nlinarith
  simp only [synthesize_ambient_frames, ht, List.take_zero]

/-! ### Claim theorems -/

/-- C1 (counterexample): at `duration = 73501/73500` (a positive duration whose
sample count `duration * 44100 = 44100.6` has fractional part above one half),
the buffer length is `int(duration * sr) = 44100`, not
`round(duration * sr) = 44101` as the claim states. -/
theorem C1_counterexample :
    (0 < (73501/73500 : ℚ)) ∧
    (synthesize_ambient_frames (73501/73500) "calm").length ≠
      (round ((73501/73500 : ℚ) * (SAMPLE_RATE : ℚ))).toNat := by
  refine ⟨by norm_num, ?_⟩
  rw [synthesize_ambient_frames_length, sample_rate_cast,
    pyInt_of_nonneg (by norm_num), round_eq]
  norm_num
  decide

/-- C1 (amended): for every positive duration and every mood, the sample
buffer written to the container has length exactly
`int(duration * sample_rate)` — Python `int` truncation, i.e. the floor for
positive durations — the padding/truncation plumbing never changing that
count. -/
theorem C1_amended (duration : ℚ) (mood : String) (h : 0 < duration) :
    (synthesize_ambient_frames duration mood).length =
      (⌊duration * (SAMPLE_RATE : ℚ)⌋).toNat := by
  rw [synthesize_ambient_frames_length, pyInt_of_nonneg (by positivity)]

theorem C1_witness :
    (0 < (1 : ℚ)) ∧ (synthesize_ambient_frames 1 "calm").length =
      (⌊(1 : ℚ) * (SAMPLE_RATE : ℚ)⌋).toNat :=
  ⟨by norm_num, C1_amended 1 "calm" (by norm_num)⟩

/-- C2: for every positive duration and mood, every sample of both channels
of the final float buffer lies in `[-0.8, 0.8]`, and every quantized integer
sample lies in `[-32768, 32767]`. -/
theorem C2_amplitude_bounds (duration : ℚ) (mood : String) (h : 0 < duration) :
    (∀ p ∈ synthesize_ambient_frames duration mood, |p.1| ≤ 0.8 ∧ |p.2| ≤ 0.8) ∧
    (∀ q ∈ synthesize_ambient_wav duration mood,
      (-32768 ≤ q.1 ∧ q.1 ≤ 32767) ∧ (-32768 ≤ q.2 ∧ q.2 ≤ 32767)) := by
  refine ⟨fun p hp => synth_frames_bounded duration mood p hp, fun q hq => ?_⟩
  simp only [synthesize_ambient_wav, List.mem_map] at hq
  obtain ⟨p, -, rfl⟩ := hq
  exact ⟨quantize_bounds _, quantize_bounds _⟩

theorem C2_witness :
    (0 < (1 : ℚ)) ∧
    ((∀ p ∈ synthesize_ambient_frames 1 "calm", |p.1| ≤ 0.8 ∧ |p.2| ≤ 0.8) ∧
     (∀ q ∈ synthesize_ambient_wav 1 "calm",
       (-32768 ≤ q.1 ∧ q.1 ≤ 32767) ∧ (-32768 ≤ q.2 ∧ q.2 ≤ 32767))) :=
  ⟨by norm_num, C2_amplitude_bounds 1 "calm" (by norm_num)⟩

/-- C3: within a segment, the pre-crossfade sample at local index `i`
(`t = i / sample_rate`) is the sum over the chord's frequencies of
`0.15·sin(2πft) + 0.05·sin(2π(2f)t) + 0.08·sin(2π(0.5f)t)`, multiplied by
the LFO factor `1.0 + 0.03·sin(2π·0.2·t)`; and after the crossfade factor
and the clamp, the stereo frame is `(sample, sample * 0.95)`. -/
theorem C3_segment_sample_formula (spc : ℤ) (chord : List ℚ) (i : ℕ)
    (h : i < spc.toNat) :
    preSample chord ((i : ℝ) / ((SAMPLE_RATE : ℕ) : ℝ)) *
        lfo ((i : ℝ) / ((SAMPLE_RATE : ℕ) : ℝ)) =
      (chord.map (fun (f : ℚ) =>
        0.15 * Real.sin (2 * Real.pi * (f : ℝ) * ((i : ℝ) / ((SAMPLE_RATE : ℕ) : ℝ))) +
        0.05 * Real.sin (2 * Real.pi * (2 * (f : ℝ)) * ((i : ℝ) / ((SAMPLE_RATE : ℕ) : ℝ))) +
        0.08 * Real.sin (2 * Real.pi * (0.5 * (f : ℝ)) * ((i : ℝ) / ((SAMPLE_RATE : ℕ) : ℝ))))).sum *
      (1.0 + 0.03 * Real.sin (2 * Real.pi * 0.2 * ((i : ℝ) / ((SAMPLE_RATE : ℕ) : ℝ)))) ∧
    (segmentFrames spc chord).getD i ((0 : ℝ), (0 : ℝ)) =
      (clamp (preSample chord ((i : ℝ) / ((SAMPLE_RATE : ℕ) : ℝ)) *
              lfo ((i : ℝ) / ((SAMPLE_RATE : ℕ) : ℝ)) *
              ((fadeFactor spc (i : ℤ) : ℚ) : ℝ)),
       clamp (preSample chord ((i : ℝ) / ((SAMPLE_RATE : ℕ) : ℝ)) *
              lfo ((i : ℝ) / ((SAMPLE_RATE : ℕ) : ℝ)) *
              ((fadeFactor spc (i : ℤ) : ℚ) : ℝ)) * 0.95) := by
  constructor
  · rw [preSample_eq_sum]
    simp only [lfo]
  · rw [segmentFrames_getD _ _ _ h, segFrame_eq_fadeFactor]

theorem C3_witness :
    preSample [(440 : ℚ)] (((0 : ℕ) : ℝ) / ((SAMPLE_RATE : ℕ) : ℝ)) *
        lfo (((0 : ℕ) : ℝ) / ((SAMPLE_RATE : ℕ) : ℝ)) =
      ([(440 : ℚ)].map (fun (f : ℚ) =>
        0.15 * Real.sin (2 * Real.pi * (f : ℝ) * (((0 : ℕ) : ℝ) / ((SAMPLE_RATE : ℕ) : ℝ))) +
        0.05 * Real.sin (2 * Real.pi * (2 * (f : ℝ)) * (((0 : ℕ) : ℝ) / ((SAMPLE_RATE : ℕ) : ℝ))) +
        0.08 * Real.sin (2 * Real.pi * (0.5 * (f : ℝ)) * (((0 : ℕ) : ℝ) / ((SAMPLE_RATE : ℕ) : ℝ))))).sum *
      (1.0 + 0.03 * Real.sin (2 * Real.pi * 0.2 * (((0 : ℕ) : ℝ) / ((SAMPLE_RATE : ℕ) : ℝ)))) :=
  (C3_segment_sample_formula 1 [(440 : ℚ)] 0 (by decide)).1

/-- C5 (counterexample): `_detect_mood("soft piano ballad")` does not return
`"melancholic"`: the keyword `"soft"` belongs to `"calm"`, which precedes
`"melancholic"` in the fixed table order, so the first match wins. -/
theorem C5_counterexample : detect_mood "soft piano ballad" ≠ "melancholic" := by
  decide

/-- C5 (amended): under the fixed first-match-wins table order,
`_detect_mood("soft piano ballad")` returns `"calm"` (the `"soft"` keyword of
`"calm"` matches before `"piano"` of `"melancholic"` is reached);
`_detect_mood("")` returns `"calm"`; `_detect_mood("epic orchestral battle")`
returns `"epic"`. -/
theorem C5_amended :
    detect_mood "soft piano ballad" = "calm" ∧
    detect_mood "" = "calm" ∧
    detect_mood "epic orchestral battle" = "epic" :=
  ⟨by decide, by decide, by decide⟩

/-- C7 (counterexample): at the non-positive duration `-1` the synthesizer
does not fail with any error — it completes normally, producing an empty
buffer. -/
theorem C7_counterexample :
    ((-1 : ℚ) ≤ 0) ∧ synthesize_ambient_checked (-1) "calm" = Except.ok [] := by
  refine ⟨by norm_num, ?_⟩
  unfold synthesize_ambient_checked
  rw [synth_empty_of_nonpos _ _ (by norm_num)]

/-- C7 (amended): for every `duration ≤ 0` the synthesizer completes and
produces an empty (zero-frame) output; in particular it never raises an
`InvalidDurationError` (no such check or error class exists in the code). -/
theorem C7_amended (duration : ℚ) (mood : String) (h : duration ≤ 0) :
    synthesize_ambient_checked duration mood = Except.ok [] ∧
      ∀ e : MusicError, synthesize_ambient_checked duration mood ≠ Except.error e := by
  have hok : synthesize_ambient_checked duration mood = Except.ok [] := by
    unfold synthesize_ambient_checked
    rw [synth_empty_of_nonpos _ _ h]
  refine ⟨hok, fun e he => ?_⟩
  rw [hok] at he
  exact Except.noConfusion he

theorem C7_witness :
    synthesize_ambient_checked 0 "calm" = Except.ok [] ∧
      ∀ e : MusicError, synthesize_ambient_checked 0 "calm" ≠ Except.error e :=
  C7_amended 0 "calm" (le_refl 0)

/-- C8: synthesis is deterministic — with the ambient state (RNG state, wall
clock) made explicit, the output buffer is independent of it: the only
interaction with the environment is the fixed `random.seed(42)`, and no
synthesis step reads the RNG or the clock, so two invocations with identical
`(duration, mood)` produce identical buffers. -/
theorem C8_determinism (e₁ e₂ : SynthEnv) (duration : ℚ) (mood : String) :
    synthesize_ambient_env e₁ duration mood =
      synthesize_ambient_env e₂ duration mood := rfl

/-- C4 (counterexample): for a segment of `22050` samples (shorter than twice
the 0.5 s crossfade) at local index `1`, the scaling the claim describes —
both ramps applied to overlapping samples — differs from the factor the code
applies, because the code's `elif` lets the fade-in ramp shadow the fade-out
ramp on the overlap. -/
theorem C4_counterexample : claimFadeFactor 22050 1 ≠ fadeFactor 22050 1 := by
  unfold claimFadeFactor fadeFactor
  rw [crossfade_samples_eq]
  norm_num

/-- C4 (amended): each generated frame is the pre-crossfade sample scaled by
the single factor `fadeFactor`; the first `crossfade_samples` samples are
scaled by `i / crossfade_samples`, and a sample is scaled by the fade-out ramp
`(samples_per_segment - i) / crossfade_samples` only when `i ≥
crossfade_samples` (the `elif` gives the fade-in ramp precedence on segments
shorter than twice the crossfade) and `i > samples_per_segment -
crossfade_samples` (strict, leaving the boundary sample unscaled); all
remaining samples are unscaled. -/
theorem C4_crossfade (spc : ℤ) (chord : List ℚ) (i : ℕ) (h : i < spc.toNat) :
    (segmentFrames spc chord).getD i ((0 : ℝ), (0 : ℝ)) =
      (clamp (preSample chord ((i : ℝ) / ((SAMPLE_RATE : ℕ) : ℝ)) *
              lfo ((i : ℝ) / ((SAMPLE_RATE : ℕ) : ℝ)) *
              ((fadeFactor spc (i : ℤ) : ℚ) : ℝ)),
       clamp (preSample chord ((i : ℝ) / ((SAMPLE_RATE : ℕ) : ℝ)) *
              lfo ((i : ℝ) / ((SAMPLE_RATE : ℕ) : ℝ)) *
              ((fadeFactor spc (i : ℤ) : ℚ) : ℝ)) * 0.95) ∧
    ((i : ℤ) < crossfade_samples →
      fadeFactor spc (i : ℤ) = (i : ℚ) / ((crossfade_samples : ℤ) : ℚ)) ∧
    (crossfade_samples ≤ (i : ℤ) → spc - crossfade_samples < (i : ℤ) →
      fadeFactor spc (i : ℤ) =
        ((spc - (i : ℤ) : ℤ) : ℚ) / ((crossfade_samples : ℤ) : ℚ)) ∧
    (crossfade_samples ≤ (i : ℤ) → (i : ℤ) ≤ spc - crossfade_samples →
      fadeFactor spc (i : ℤ) = 1) := by
  refine ⟨by rw [segmentFrames_getD _ _ _ h, segFrame_eq_fadeFactor], ?_, ?_, ?_⟩
  · intro h1
    unfold fadeFactor
    rw [if_pos h1]
    norm_cast
  · intro h1 h2
    unfold fadeFactor
    rw [if_neg (not_lt.mpr h1), if_pos h2]
  · intro h1 h2
    unfold fadeFactor
    rw [if_neg (not_lt.mpr h1), if_neg (not_lt.mpr h2)]

theorem C4_witness :
    fadeFactor 22050 ((1 : ℕ) : ℤ) = ((1 : ℕ) : ℚ) / ((crossfade_samples : ℤ) : ℚ) :=
  (C4_crossfade 22050 [(440 : ℚ)] 1 (by decide)).2.1
    (by rw [crossfade_samples_eq]; norm_num)

/-- C6 (counterexample): at the amplitude `3/163835` (within `[-1, 1]`, with
`amplitude * 32767 = 0.6`), the writer's `int()` truncation yields `0` while
the claimed `round()` yields `1`. -/
theorem C6_counterexample :
    ((-1 ≤ (3/163835 : ℝ) ∧ (3/163835 : ℝ) ≤ 1)) ∧
    quantize (3/163835) ≠ roundQuantize (3/163835) := by
  refine ⟨⟨by norm_num, by norm_num⟩, ?_⟩
  unfold quantize roundQuantize pyTrunc
  rw [(by norm_num : (3/163835 : ℝ) * 32767 = 3/5), if_pos (by norm_num),
    (by rw [round_eq]; norm_num : round ((3/5 : ℝ)) = 1),
    (by norm_num : ⌊(3/5 : ℝ)⌋ = 0)]
  decide

/-- C6 (amended): the writer quantizes by `int(amplitude * 32767)` —
truncation toward zero, not rounding to nearest — and clamps to
`[-32768, 32767]`; for amplitudes in `[-1, 1]` the clamp never alters the
truncated value, and the result always lies in `[-32768, 32767]`. -/
theorem C6_quantization (x : ℝ) (h1 : -1 ≤ x) (h2 : x ≤ 1) :
    quantize x = pyTrunc (x * 32767) ∧
      -32768 ≤ quantize x ∧ quantize x ≤ 32767 := by
  have hb : -32767 ≤ pyTrunc (x * 32767) ∧ pyTrunc (x * 32767) ≤ 32767 := by
    unfold pyTrunc
    split_ifs with h
    · constructor
      · have h0 : (0 : ℤ) ≤ ⌊x * 32767⌋ := Int.floor_nonneg.mpr h
        omega
      · have hf : ⌊x * 32767⌋ ≤ ⌊(32767 : ℝ)⌋ := Int.floor_le_floor (by nlinarith)
        have h37 : ⌊(32767 : ℝ)⌋ = 32767 := by norm_num
        omega
    · constructor
      · have hc : ⌈(-32767 : ℝ)⌉ ≤ ⌈x * 32767⌉ := Int.ceil_le_ceil (by nlinarith)
        have h37 : ⌈(-32767 : ℝ)⌉ = -32767 := by
          rw [(by norm_num : (-32767 : ℝ) = ((-32767 : ℤ) : ℝ)), Int.ceil_intCast]
        omega
      · push_neg at h
        have hc : ⌈x * 32767⌉ ≤ 0 := Int.ceil_le.mpr (by push_cast; exact h.le)
        omega
  obtain ⟨hlo, hhi⟩ := hb
  unfold quantize
  rw [min_eq_right hhi, max_eq_right (by omega)]
  exact ⟨rfl, by omega, by omega⟩

theorem C6_witness :
    quantize 0 = pyTrunc ((0 : ℝ) * 32767) ∧
      -32768 ≤ quantize 0 ∧ quantize 0 ≤ 32767 :=
  C6_quantization 0 (by norm_num) (by norm_num)

/-- C9: the override check scans the fixed extension order `.mp3`, `.wav`,
`.ogg`, `.m4a` and returns the head of the first non-empty listing; when it
finds a file, `generate_background_music` returns that path directly, never
reaching the synthesizer; it returns `none` when the directory does not exist
and when no file matches any pattern. -/
theorem C9_override (duration : ℚ) (tone : String) :
    (∀ (musicDir : Option (List String)) (p : String),
      find_custom_music musicDir = some p →
      generate_background_music musicDir duration tone = MusicResult.custom p) ∧
    find_custom_music none = none ∧
    (∀ files : List String,
      (∀ f ∈ files, ∀ pat ∈ musicGlobs, globMatch pat f = false) →
      find_custom_music (some files) = none) ∧
    (∀ files : List String,
      find_custom_music (some files) =
        ((files.filter (fun f => globMatch "*.mp3" f)).head?).or
         (((files.filter (fun f => globMatch "*.wav" f)).head?).or
          (((files.filter (fun f => globMatch "*.ogg" f)).head?).or
           ((files.filter (fun f => globMatch "*.m4a" f)).head?)))) := by
  refine ⟨?_, rfl, ?_, ?_⟩
  · intro musicDir p hfind
    unfold generate_background_music
    rw [hfind]
  · intro files hnone
    have hfil : ∀ pat ∈ musicGlobs, files.filter (fun f => globMatch pat f) = [] := by
      intro pat hpat
      apply List.filter_eq_nil_iff.mpr
      intro f hf
      simp [hnone f hf pat hpat]
    simp only [find_custom_music, musicGlobs] at *
    unfold findFirstMatch
    rw [hfil "*.mp3" (by simp [musicGlobs])]
    unfold findFirstMatch
    rw [hfil "*.wav" (by simp [musicGlobs])]
    unfold findFirstMatch
    rw [hfil "*.ogg" (by simp [musicGlobs])]
    unfold findFirstMatch
    rw [hfil "*.m4a" (by simp [musicGlobs])]
    rfl
  · intro files
    simp only [find_custom_music, musicGlobs]
    unfold findFirstMatch
    cases h1 : files.filter (fun f => globMatch "*.mp3" f) with
    | cons f rest => simp [h1]
    | nil =>
      unfold findFirstMatch
      cases h2 : files.filter (fun f => globMatch "*.wav" f) with
      | cons f rest => simp [h1, h2]
      | nil =>
        unfold findFirstMatch
        cases h3 : files.filter (fun f => globMatch "*.ogg" f) with
        | cons f rest => simp [h1, h2, h3]
        | nil =>
          unfold findFirstMatch
          cases h4 : files.filter (fun f => globMatch "*.m4a" f) with
          | cons f rest => simp [h1, h2, h3, h4]
          | nil => simp [findFirstMatch, h1, h2, h3, h4]

theorem C9_witness :
    generate_background_music (some ["notes.txt", "theme.mp3"]) 10 "calm" =
      MusicResult.custom "theme.mp3" :=
  (C9_override 10 "calm").1 (some ["notes.txt", "theme.mp3"]) "theme.mp3" (by decide)

/-- C10: for positive durations the 4 segments of `int(duration/4 * sr)`
samples generated before padding never exceed `total_samples =
int(duration * sr)`; the padding loop therefore brings the buffer to exactly
`total_samples` frames, and the truncating `[:total_samples]` slice at write
time discards nothing. -/
theorem C10_no_overshoot (duration : ℚ) (mood : String) (h : 0 < duration) :
    (genFrames (moodChords mood)
        (samples_per_chord duration (moodChords mood).length)).length =
      4 * (samples_per_chord duration 4).toNat ∧
    4 * (samples_per_chord duration 4).toNat ≤ (total_samples duration).toNat ∧
    (paddedFrames duration mood).length = (total_samples duration).toNat ∧
    synthesize_ambient_frames duration mood =
      applyFadeOut (applyFadeIn (paddedFrames duration mood)) := by
  have hlen := moodChords_length mood
  have hgen : (genFrames (moodChords mood)
      (samples_per_chord duration (moodChords mood).length)).length =
      4 * (samples_per_chord duration 4).toNat := by
    rw [genFrames_length, hlen]
  have hle : 4 * (samples_per_chord duration 4).toNat ≤
      (total_samples duration).toNat := by
    have hspc : samples_per_chord duration 4 =
        pyInt (duration / 4 * (SAMPLE_RATE : ℚ)) := by
      norm_num [samples_per_chord]
    rw [hspc, total_samples]
    exact four_spc_le_total duration h.le
  have hpad : (paddedFrames duration mood).length =
      (total_samples duration).toNat := by
    simp only [paddedFrames, List.length_append, List.length_replicate]
    omega
  refine ⟨hgen, hle, hpad, ?_⟩
  unfold synthesize_ambient_frames
  apply List.take_of_length_le
  rw [applyFadeOut_length, applyFadeIn_length, hpad]

theorem C10_witness :
    (0 < (1 : ℚ)) ∧
    ((genFrames (moodChords "calm")
        (samples_per_chord 1 (moodChords "calm").length)).length =
      4 * (samples_per_chord 1 4).toNat ∧
    4 * (samples_per_chord 1 4).toNat ≤ (total_samples 1).toNat ∧
    (paddedFrames 1 "calm").length = (total_samples 1).toNat ∧
    synthesize_ambient_frames 1 "calm" =
      applyFadeOut (applyFadeIn (paddedFrames 1 "calm"))) :=
  ⟨by norm_num, C10_no_overshoot 1 "calm" (by norm_num)⟩
